import Mathlib

/-!
Verification of the Moon-libration simulator (src/main.rs).

The application state (struct Libration) is embedded with exact rationals
in place of f64 for the event-driven state machine, and with real numbers
for the orbital kinematics (moon_pos and its helpers), which use sin, cos,
sqrt and atan2.  Timestamps (std::time::Instant) are modelled as natural
numbers counting milliseconds, so Duration::as_millis of a difference of
instants becomes truncated natural subtraction.
-/

open Real

/-- The application state, mirroring struct Libration in src/main.rs.
Numeric f64 fields are modelled as exact rationals; last_tick holds the
millisecond timestamp of the previously processed tick, if any. -/
structure Libration where
  playing : Bool
  scale : ℚ
  time : ℚ
  period : ℚ
  eccentricity : ℚ
  last_tick : Option ℕ
  center_moon : Bool
deriving DecidableEq

/-- Libration::new, the initial state. -/
def Libration.new : Libration :=
  { playing := false, scale := 100, time := 0, period := 8,
    eccentricity := 0, last_tick := none, center_moon := false }

/-- The while loop in the Tick arm of Application::update for Libration:
while time > 1.0, subtract 1.0. -/
def wrapPhase (x : ℚ) : ℚ :=
  if h : 1 < x then wrapPhase (x - 1) else x
termination_by (⌈x⌉).toNat
decreasing_by
  have h2 : (1 : ℤ) < ⌈x⌉ := by
    rw [Int.lt_ceil]
    exact_mod_cast h
  rw [Int.ceil_sub_one]
  omega

/-- The Tick arm of Application::update for Libration: when playing and a
previous tick timestamp exists, advance the phase by the elapsed wall-clock
seconds divided by the period and wrap it, then record the new timestamp;
when playing with no previous timestamp only record the timestamp; a tick
while paused does nothing.  The ambient Instant::now() of the source is
passed in as the parameter now. -/
def Libration.tick (s : Libration) (now : ℕ) : Libration :=
  if s.playing then
    match s.last_tick with
    | some last =>
      { s with
          time := wrapPhase (s.time + ((now - last : ℕ) : ℚ) / 1000 / s.period),
          last_tick := some now }
    | none => { s with last_tick := some now }
  else s

/-- The keys handled by the Program::update method for Libration; Other
stands for any key matched by the catch-all arm of the source. -/
inductive Key
  | Space
  | E
  | Q
  | Z
  | X
  | C
  | Other
deriving DecidableEq

/-- The keyboard-dispatch Program::update method for Libration in
src/main.rs (0.1 is the exact rational 1/10 and 1.1 is 11/10). -/
def Libration.keyUpdate (s : Libration) (k : Key) : Libration :=
  match k with
  | .Space =>
    if s.playing then { s with playing := false, last_tick := none }
    else { s with playing := true }
  | .E =>
    let e := s.eccentricity + 1 / 10
    { s with eccentricity := if 99 / 100 < e then 99 / 100 else e }
  | .Q =>
    let e := s.eccentricity - 1 / 10
    { s with eccentricity := if e < 0 then 0 else e }
  | .Z => { s with scale := s.scale / (11 / 10) }
  | .X => { s with scale := s.scale * (11 / 10) }
  | .C => { s with center_moon := !s.center_moon }
  | .Other => s

/-- The constant MOON_ORBIT_RADIUS from src/main.rs, the fixed semi-latus
rectum of the drawn orbit. -/
noncomputable def MOON_ORBIT_RADIUS : ℝ := 40

/-- The method Libration::r, the focus-centered conic radius
p / (1 + e cos phi), with the eccentricity field passed explicitly.  In
the real-number model every value is automatically finite. -/
noncomputable def Libration.r (ecc p phi : ℝ) : ℝ :=
  p / (1 + ecc * Real.cos phi)

/-- The static method Libration::rphi_to_xy; the f32 casts of the source
are dropped in the real-number model. -/
noncomputable def Libration.rphi_to_xy (rad phi : ℝ) : ℝ × ℝ :=
  (-rad * Real.cos phi, rad * Real.sin phi)

/-- Rust f64::atan2: atan2 y x is the argument of the complex number
x + y i, with values in Ioc (-pi) pi. -/
noncomputable def atan2 (y x : ℝ) : ℝ :=
  Complex.arg (x + y * Complex.I)

/-- The mean-anomaly computation at the top of Libration::moon_pos: the
phase times 2 pi, reduced once by 2 pi when it exceeds pi. -/
noncomputable def meanAnomaly (time : ℝ) : ℝ :=
  if π < time * (2 * π) then time * (2 * π) - 2 * π else time * (2 * π)

/-- The closure f inside Libration::moon_pos: the Kepler residual
E - e sin E - M. -/
noncomputable def keplerF (ecc M E : ℝ) : ℝ := E - ecc * Real.sin E - M

/-- The closure df inside Libration::moon_pos: the derivative 1 - e cos E
of the Kepler residual. -/
noncomputable def keplerDf (ecc E : ℝ) : ℝ := 1 - ecc * Real.cos E

/-- The Newton-Raphson while loop inside Libration::moon_pos: step
E := E - f E / df E until the magnitude of f E / df E is at most 1e-10.
The source loop has no iteration cap; the fuel parameter bounds the number
of iterations in the model, and none reports that the loop was still
running when the fuel ran out. -/
noncomputable def newtonLoop (ecc M : ℝ) (fuel : ℕ) (ecc_anom : ℝ) : Option ℝ :=
  if |keplerF ecc M ecc_anom / keplerDf ecc ecc_anom| ≤ 1 / 10 ^ 10 then
    some ecc_anom
  else
    match fuel with
    | 0 => none
    | n + 1 => newtonLoop ecc M n (ecc_anom - keplerF ecc M ecc_anom / keplerDf ecc ecc_anom)

/-- The true-anomaly computation inside Libration::moon_pos. -/
noncomputable def trueAnomaly (ecc E : ℝ) : ℝ :=
  atan2 (Real.sqrt (1 - ecc * ecc) * Real.sin E) (Real.cos E - ecc)

/-- The method Libration::moon_pos, composed exactly as in the source:
normalized mean anomaly, Newton-Raphson solve of the Kepler equation
starting from the mean anomaly, true anomaly, conic radius, and Cartesian
projection.  The fuel parameter feeds the uncapped Newton loop. -/
noncomputable def Libration.moon_pos (fuel : ℕ) (s : Libration) : Option (ℝ × ℝ) :=
  let mean_anomaly := meanAnomaly (s.time : ℝ)
  let ecc : ℝ := (s.eccentricity : ℝ)
  match newtonLoop ecc mean_anomaly fuel mean_anomaly with
  | none => none
  | some ecc_anom =>
    let true_anom := trueAnomaly ecc ecc_anom
    some (Libration.rphi_to_xy (Libration.r ecc MOON_ORBIT_RADIUS true_anom) true_anom)

/-- wrapPhase leaves any argument at most one unchanged. -/
theorem wrapPhase_of_le {x : ℚ} (h : x ≤ 1) : wrapPhase x = x := by
  rw [wrapPhase.eq_def, dif_neg (not_lt.mpr h)]

/-- wrapPhase never returns a value above one. -/
theorem wrapPhase_le_one (x : ℚ) : wrapPhase x ≤ 1 :=
  if h : 1 < x then by
    rw [wrapPhase.eq_def, dif_pos h]
    exact wrapPhase_le_one (x - 1)
  else by
    rw [wrapPhase.eq_def, dif_neg h]
    exact not_lt.mp h
termination_by (⌈x⌉).toNat
decreasing_by
  have h2 : (1 : ℤ) < ⌈x⌉ := by
    rw [Int.lt_ceil]
    exact_mod_cast h
  rw [Int.ceil_sub_one]
  omega

/-- wrapPhase preserves nonnegativity. -/
theorem wrapPhase_nonneg {x : ℚ} (h : 0 ≤ x) : 0 ≤ wrapPhase x :=
  if h1 : 1 < x then by
    rw [wrapPhase.eq_def, dif_pos h1]
    exact wrapPhase_nonneg (by linarith)
  else by
    rw [wrapPhase.eq_def, dif_neg h1]
    exact h
termination_by (⌈x⌉).toNat
decreasing_by
  have h2 : (1 : ℤ) < ⌈x⌉ := by
    rw [Int.lt_ceil]
    exact_mod_cast h1
  rw [Int.ceil_sub_one]
  omega

/-- A single tick keeps the phase inside the closed unit interval and does
not change the period. -/
theorem tick_phase_bounds (s : Libration) (now : ℕ) (h0 : 0 ≤ s.time)
    (h1 : s.time ≤ 1) (hp : 0 < s.period) :
    0 ≤ (s.tick now).time ∧ (s.tick now).time ≤ 1 ∧ (s.tick now).period = s.period := by
  unfold Libration.tick
  by_cases hpl : s.playing
  · rw [if_pos hpl]
    cases hlt : s.last_tick with
    | none => exact ⟨h0, h1, rfl⟩
    | some last =>
      have hd : 0 ≤ ((now - last : ℕ) : ℚ) / 1000 / s.period :=
        div_nonneg (div_nonneg (Nat.cast_nonneg _) (by norm_num)) hp.le
      exact ⟨wrapPhase_nonneg (add_nonneg h0 hd), wrapPhase_le_one _, rfl⟩
  · rw [if_neg hpl]
    exact ⟨h0, h1, rfl⟩

/-- Any sequence of ticks keeps the phase inside the closed unit interval. -/
theorem foldl_tick_phase_bounds :
    ∀ (ticks : List ℕ) (s : Libration), 0 ≤ s.time → s.time ≤ 1 → 0 < s.period →
      0 ≤ (ticks.foldl Libration.tick s).time ∧ (ticks.foldl Libration.tick s).time ≤ 1 := by
  intro ticks
  induction ticks with
  | nil => exact fun s h0 h1 _ => ⟨h0, h1⟩
  | cons t ts ih =>
    intro s h0 h1 hp
    have h := tick_phase_bounds s t h0 h1 hp
    simpa using ih (s.tick t) h.1 h.2.1 (h.2.2 ▸ hp)

/-- C4 (amended): starting from a state with phase in [0, 1) and positive
period, any sequence of Tick events keeps the phase within the closed
interval [0, 1].  The while loop reduces every overshoot back to at most 1,
but the phase can land exactly on 1, so the half-open interval [0, 1) of
the original claim is not an invariant. -/
theorem phase_stays_in_unit_interval (s : Libration) (h0 : 0 ≤ s.time)
    (h1 : s.time < 1) (hp : 0 < s.period) (ticks : List ℕ) :
    0 ≤ (ticks.foldl Libration.tick s).time ∧ (ticks.foldl Libration.tick s).time ≤ 1 :=
  foldl_tick_phase_bounds ticks s h0 h1.le hp

/-- C4 witness: the amended invariant applied to the playing initial state
and two concrete ticks. -/
theorem phase_stays_in_unit_interval_witness :
    0 ≤ ({ Libration.new with playing := true } : Libration).time ∧
    ({ Libration.new with playing := true } : Libration).time < 1 ∧
    0 < ({ Libration.new with playing := true } : Libration).period ∧
    0 ≤ (([5, 1000] : List ℕ).foldl Libration.tick { Libration.new with playing := true }).time ∧
    (([5, 1000] : List ℕ).foldl Libration.tick { Libration.new with playing := true }).time ≤ 1 := by
  refine ⟨by decide, by decide, by decide, ?_⟩
  exact phase_stays_in_unit_interval _ (by decide) (by decide) (by decide) [5, 1000]

/-- C4 counterexample: a playing state with phase 0, period 8 and a
previous tick at 0 ms, ticked at 8000 ms (exactly one period later),
reaches phase exactly 1, which lies outside the half-open interval [0, 1)
demanded by the claim: the guard `while phase > 1.0` does not fire at 1. -/
theorem phase_hits_one_cex :
    (Libration.tick
      { playing := true, scale := 100, time := 0, period := 8,
        eccentricity := 0, last_tick := some 0, center_moon := false } 8000).time = 1 ∧
    ¬ ((Libration.tick
      { playing := true, scale := 100, time := 0, period := 8,
        eccentricity := 0, last_tick := some 0, center_moon := false } 8000).time < 1) := by
  have e1 : (Libration.tick
      { playing := true, scale := 100, time := 0, period := 8,
        eccentricity := 0, last_tick := some 0, center_moon := false } 8000).time
      = wrapPhase (0 + ((8000 - 0 : ℕ) : ℚ) / 1000 / 8) := rfl
  have e2 : (0 : ℚ) + ((8000 - 0 : ℕ) : ℚ) / 1000 / 8 = 1 := by norm_num
  rw [e1, e2, wrapPhase_of_le le_rfl]
  exact ⟨rfl, lt_irrefl 1⟩


/-- Any single key press keeps the eccentricity inside [0, 0.99]. -/
theorem keyUpdate_ecc_mem (s : Libration) (k : Key) (h0 : 0 ≤ s.eccentricity)
    (h1 : s.eccentricity ≤ 99 / 100) :
    0 ≤ (s.keyUpdate k).eccentricity ∧ (s.keyUpdate k).eccentricity ≤ 99 / 100 := by
  cases k with
  | E =>
    simp only [Libration.keyUpdate]
    split
    next hlt => exact ⟨by norm_num, le_refl _⟩
    next hlt => exact ⟨by linarith, by linarith [not_lt.mp hlt]⟩
  | Q =>
    simp only [Libration.keyUpdate]
    split
    next hlt => exact ⟨le_refl _, by norm_num⟩
    next hlt => exact ⟨by linarith [not_lt.mp hlt], by linarith⟩
  | Space => by_cases hp : s.playing <;> simp [Libration.keyUpdate, hp, h0, h1]
  | Z => exact ⟨h0, h1⟩
  | X => exact ⟨h0, h1⟩
  | C => exact ⟨h0, h1⟩
  | Other => exact ⟨h0, h1⟩

/-- Any sequence of key presses keeps the eccentricity inside [0, 0.99]. -/
theorem foldl_keyUpdate_ecc_mem :
    ∀ (l : List Key) (s : Libration), 0 ≤ s.eccentricity → s.eccentricity ≤ 99 / 100 →
      0 ≤ (l.foldl Libration.keyUpdate s).eccentricity ∧
        (l.foldl Libration.keyUpdate s).eccentricity ≤ 99 / 100 := by
  intro l
  induction l with
  | nil => exact fun s h0 h1 => ⟨h0, h1⟩
  | cons k ks ih =>
    intro s h0 h1
    have h := keyUpdate_ecc_mem s k h0 h1
    simpa using ih (s.keyUpdate k) h.1 h.2

/-- A Q press at eccentricity zero leaves the eccentricity at zero. -/
theorem keyUpdate_Q_at_zero (s : Libration) (h : s.eccentricity = 0) :
    (s.keyUpdate .Q).eccentricity = 0 := by
  simp only [Libration.keyUpdate, h]
  norm_num

/-- Any run of Q presses started at eccentricity zero stays at zero. -/
theorem foldl_Q_at_zero :
    ∀ (m : ℕ) (s : Libration), s.eccentricity = 0 →
      ((List.replicate m Key.Q).foldl Libration.keyUpdate s).eccentricity = 0 := by
  intro m
  induction m with
  | zero => exact fun s h => h
  | succ n ih =>
    intro s h
    rw [List.replicate_succ, List.foldl_cons]
    exact ih (s.keyUpdate .Q) (keyUpdate_Q_at_zero s h)

/-- Twenty E presses from the initial state put the eccentricity at
exactly 0.99. -/
theorem twenty_E_presses :
    ((List.replicate 20 Key.E).foldl Libration.keyUpdate Libration.new).eccentricity
      = 99 / 100 := by
  have hrep : List.replicate 20 Key.E
      = [Key.E, Key.E, Key.E, Key.E, Key.E, Key.E, Key.E, Key.E, Key.E, Key.E,
         Key.E, Key.E, Key.E, Key.E, Key.E, Key.E, Key.E, Key.E, Key.E, Key.E] := rfl
  rw [hrep]
  norm_num [List.foldl, Libration.keyUpdate, Libration.new]

/-- Ten Q presses from the state reached by twenty E presses put the
eccentricity at exactly 0. -/
theorem ten_Q_presses :
    ((List.replicate 10 Key.Q).foldl Libration.keyUpdate
      ((List.replicate 20 Key.E).foldl Libration.keyUpdate Libration.new)).eccentricity
      = 0 := by
  have hrepE : List.replicate 20 Key.E
      = [Key.E, Key.E, Key.E, Key.E, Key.E, Key.E, Key.E, Key.E, Key.E, Key.E,
         Key.E, Key.E, Key.E, Key.E, Key.E, Key.E, Key.E, Key.E, Key.E, Key.E] := rfl
  have hrepQ : List.replicate 10 Key.Q
      = [Key.Q, Key.Q, Key.Q, Key.Q, Key.Q, Key.Q, Key.Q, Key.Q, Key.Q, Key.Q] := rfl
  rw [hrepE, hrepQ]
  norm_num [List.foldl, Libration.keyUpdate, Libration.new]

/-- C5: eccentricity control.  From any state whose eccentricity lies in
[0, 0.99], one E press and one Q press both keep it in [0, 0.99].  From
the initial state, twenty successive E presses leave the eccentricity at
exactly 0.99 and it never exceeds 0.99 after any number of presses; from
that plateau, twenty successive Q presses bring it to exactly 0, and it
stays 0 from the tenth Q press on. -/
theorem eccentricity_clamped (s : Libration) (h0 : 0 ≤ s.eccentricity)
    (h1 : s.eccentricity ≤ 99 / 100) :
    (0 ≤ (s.keyUpdate .E).eccentricity ∧ (s.keyUpdate .E).eccentricity ≤ 99 / 100) ∧
    (0 ≤ (s.keyUpdate .Q).eccentricity ∧ (s.keyUpdate .Q).eccentricity ≤ 99 / 100) ∧
    ((List.replicate 20 Key.E).foldl Libration.keyUpdate Libration.new).eccentricity
      = 99 / 100 ∧
    (∀ n : ℕ,
      ((List.replicate n Key.E).foldl Libration.keyUpdate Libration.new).eccentricity
        ≤ 99 / 100) ∧
    ((List.replicate 20 Key.Q).foldl Libration.keyUpdate
        ((List.replicate 20 Key.E).foldl Libration.keyUpdate Libration.new)).eccentricity
      = 0 ∧
    (∀ m : ℕ,
      ((List.replicate (10 + m) Key.Q).foldl Libration.keyUpdate
          ((List.replicate 20 Key.E).foldl Libration.keyUpdate Libration.new)).eccentricity
        = 0) := by
  have hkeep : ∀ m : ℕ,
      ((List.replicate (10 + m) Key.Q).foldl Libration.keyUpdate
          ((List.replicate 20 Key.E).foldl Libration.keyUpdate Libration.new)).eccentricity
        = 0 := by
    intro m
    rw [List.replicate_add, List.foldl_append]
    exact foldl_Q_at_zero m _ ten_Q_presses
  refine ⟨keyUpdate_ecc_mem s .E h0 h1, keyUpdate_ecc_mem s .Q h0 h1,
    twenty_E_presses, ?_, ?_, hkeep⟩
  · intro n
    exact (foldl_keyUpdate_ecc_mem (List.replicate n Key.E) Libration.new
      (by norm_num [Libration.new]) (by norm_num [Libration.new])).2
  · have h20 : (20 : ℕ) = 10 + 10 := rfl
    rw [h20]
    exact hkeep 10

/-- C5 witness: the clamping theorem applied at the initial state. -/
theorem eccentricity_clamped_witness :
    0 ≤ Libration.new.eccentricity ∧ Libration.new.eccentricity ≤ 99 / 100 ∧
    ((0 ≤ (Libration.new.keyUpdate .E).eccentricity ∧
        (Libration.new.keyUpdate .E).eccentricity ≤ 99 / 100) ∧
      (0 ≤ (Libration.new.keyUpdate .Q).eccentricity ∧
        (Libration.new.keyUpdate .Q).eccentricity ≤ 99 / 100) ∧
      ((List.replicate 20 Key.E).foldl Libration.keyUpdate Libration.new).eccentricity
        = 99 / 100 ∧
      (∀ n : ℕ,
        ((List.replicate n Key.E).foldl Libration.keyUpdate Libration.new).eccentricity
          ≤ 99 / 100) ∧
      ((List.replicate 20 Key.Q).foldl Libration.keyUpdate
          ((List.replicate 20 Key.E).foldl Libration.keyUpdate Libration.new)).eccentricity
        = 0 ∧
      (∀ m : ℕ,
        ((List.replicate (10 + m) Key.Q).foldl Libration.keyUpdate
            ((List.replicate 20 Key.E).foldl Libration.keyUpdate Libration.new)).eccentricity
          = 0)) :=
  ⟨by norm_num [Libration.new], by norm_num [Libration.new],
    eccentricity_clamped Libration.new (by norm_num [Libration.new])
      (by norm_num [Libration.new])⟩

/-- C6: from a playing state, toggling play twice (pause, then resume) and
then ticking applies zero phase delta: the tick only records the new
timestamp, and the phase still equals the original phase, no matter how
much wall-clock time passed while paused. -/
theorem pause_resume_tick_zero_delta (s : Libration) (h : s.playing = true) (now : ℕ) :
    Libration.tick (Libration.keyUpdate (Libration.keyUpdate s .Space) .Space) now
      = { (Libration.keyUpdate (Libration.keyUpdate s .Space) .Space) with
          last_tick := some now } ∧
    (Libration.tick (Libration.keyUpdate (Libration.keyUpdate s .Space) .Space) now).time
      = s.time := by
  have h2 : Libration.keyUpdate (Libration.keyUpdate s .Space) .Space
      = { s with playing := true, last_tick := none } := by
    simp [Libration.keyUpdate, h]
  rw [h2]
  unfold Libration.tick
  exact ⟨rfl, rfl⟩

/-- C6 witness: pause and resume from the playing initial state, then tick
123 ms later. -/
theorem pause_resume_tick_zero_delta_witness :
    ({ Libration.new with playing := true } : Libration).playing = true ∧
    (Libration.tick
        (Libration.keyUpdate
          (Libration.keyUpdate { Libration.new with playing := true } .Space) .Space) 123
      = { (Libration.keyUpdate
            (Libration.keyUpdate { Libration.new with playing := true } .Space) .Space) with
          last_tick := some 123 } ∧
    (Libration.tick
        (Libration.keyUpdate
          (Libration.keyUpdate { Libration.new with playing := true } .Space) .Space) 123).time
      = ({ Libration.new with playing := true } : Libration).time) :=
  ⟨rfl, pause_resume_tick_zero_delta { Libration.new with playing := true } rfl 123⟩

/-- C7: a Tick event while paused is a no-op: the state is unchanged in
every field. -/
theorem tick_paused_noop (s : Libration) (h : s.playing = false) (now : ℕ) :
    s.tick now = s := by
  unfold Libration.tick
  rw [h]
  simp

/-- C7 witness: ticking the initial (paused) state changes nothing. -/
theorem tick_paused_noop_witness :
    Libration.new.playing = false ∧ Libration.tick Libration.new 7 = Libration.new :=
  ⟨rfl, tick_paused_noop Libration.new rfl 7⟩

/-- Every key press preserves positivity of the scale. -/
theorem keyUpdate_scale_pos (s : Libration) (k : Key) (h : 0 < s.scale) :
    0 < (s.keyUpdate k).scale := by
  cases k with
  | Space => by_cases hp : s.playing <;> simp [Libration.keyUpdate, hp, h]
  | E => simpa [Libration.keyUpdate] using h
  | Q => simpa [Libration.keyUpdate] using h
  | Z =>
    simp only [Libration.keyUpdate]
    exact div_pos h (by norm_num)
  | X =>
    simp only [Libration.keyUpdate]
    exact mul_pos h (by norm_num)
  | C => simpa [Libration.keyUpdate] using h
  | Other => simpa [Libration.keyUpdate] using h

/-- Positivity of the scale is preserved by any sequence of key presses. -/
theorem foldl_keyUpdate_scale_pos :
    ∀ (l : List Key) (s : Libration), 0 < s.scale →
      0 < (l.foldl Libration.keyUpdate s).scale := by
  intro l
  induction l with
  | nil => exact fun s h => h
  | cons k ks ih =>
    intro s h
    simpa using ih (s.keyUpdate k) (keyUpdate_scale_pos s k h)

/-- C9: starting from the initial scale 100, any sequence of zoom key
presses (Z divides the scale by 1.1, X multiplies it by 1.1, neither is
clamped) keeps the scale strictly positive. -/
theorem scale_stays_positive (l : List Key) (_hl : ∀ k ∈ l, k = Key.Z ∨ k = Key.X) :
    0 < (l.foldl Libration.keyUpdate Libration.new).scale :=
  foldl_keyUpdate_scale_pos l Libration.new (by norm_num [Libration.new])

/-- C9 witness: a concrete zoom sequence from the initial state. -/
theorem scale_stays_positive_witness :
    (∀ k ∈ ([Key.Z, Key.X, Key.Z] : List Key), k = Key.Z ∨ k = Key.X) ∧
    0 < (([Key.Z, Key.X, Key.Z] : List Key).foldl Libration.keyUpdate Libration.new).scale :=
  ⟨by decide, scale_stays_positive [Key.Z, Key.X, Key.Z] (by decide)⟩

/-- C10: moon_pos reads only the time and eccentricity fields: any two
states agreeing on those two fields yield identical moon positions, for
every fuel bound, whatever the values of playing, scale, period, last_tick
and center_moon. -/
theorem moon_pos_depends_only_on_time_ecc (fuel : ℕ) (s1 s2 : Libration)
    (ht : s1.time = s2.time) (he : s1.eccentricity = s2.eccentricity) :
    Libration.moon_pos fuel s1 = Libration.moon_pos fuel s2 := by
  unfold Libration.moon_pos
  rw [ht, he]

/-- C10 witness: two concrete states differing in every field except time
and eccentricity give the same moon position. -/
theorem moon_pos_depends_only_on_time_ecc_witness :
    Libration.new.time
      = ({ playing := true, scale := 1, time := 0, period := 3, eccentricity := 0,
           last_tick := some 5, center_moon := true } : Libration).time ∧
    Libration.new.eccentricity
      = ({ playing := true, scale := 1, time := 0, period := 3, eccentricity := 0,
           last_tick := some 5, center_moon := true } : Libration).eccentricity ∧
    Libration.moon_pos 3 Libration.new
      = Libration.moon_pos 3
          { playing := true, scale := 1, time := 0, period := 3, eccentricity := 0,
            last_tick := some 5, center_moon := true } :=
  ⟨rfl, rfl, moon_pos_depends_only_on_time_ecc 3 _ _ rfl rfl⟩

/-- C8: for every eccentricity in [0, 0.99] and every angle, the conic
radius at the fixed positive semi-latus rectum MOON_ORBIT_RADIUS = 40 is
strictly positive; in the real-number model the value is automatically
finite. -/
theorem radius_positive (ecc phi : ℝ) (h0 : 0 ≤ ecc) (h1 : ecc ≤ 99 / 100) :
    0 < Libration.r ecc MOON_ORBIT_RADIUS phi := by
  have hc : -1 ≤ Real.cos phi := Real.neg_one_le_cos phi
  have hmul : ecc * -1 ≤ ecc * Real.cos phi := mul_le_mul_of_nonneg_left hc h0
  have hd : 0 < 1 + ecc * Real.cos phi := by nlinarith
  unfold Libration.r MOON_ORBIT_RADIUS
  exact div_pos (by norm_num) hd

/-- C8 witness: the radius theorem applied at eccentricity 0 and angle 0. -/
theorem radius_positive_witness :
    0 ≤ (0 : ℝ) ∧ (0 : ℝ) ≤ 99 / 100 ∧ 0 < Libration.r 0 MOON_ORBIT_RADIUS 0 :=
  ⟨le_refl 0, by norm_num, radius_positive 0 0 (le_refl 0) (by norm_num)⟩

/-- A value returned by the Newton loop always satisfies the stopping
criterion of the source's while loop. -/
theorem newtonLoop_stop {ecc M : ℝ} :
    ∀ {fuel : ℕ} {E0 E : ℝ}, newtonLoop ecc M fuel E0 = some E →
      |keplerF ecc M E / keplerDf ecc E| ≤ 1 / 10 ^ 10 := by
  intro fuel
  induction fuel with
  | zero =>
    intro E0 E h
    rw [newtonLoop.eq_def] at h
    split at h
    next hc =>
      rw [Option.some.injEq] at h
      rw [← h]
      exact hc
    next hc => exact absurd h (by simp)
  | succ n ih =>
    intro E0 E h
    rw [newtonLoop.eq_def] at h
    split at h
    next hc =>
      rw [Option.some.injEq] at h
      rw [← h]
      exact hc
    next hc => exact ih h

/-- C1 (amended): whenever the Newton loop inside moon_pos returns an
eccentric anomaly E for some eccentricity in [0, 0.99] and some phase, the
recomputed mean anomaly E - e sin E differs from the normalized mean
anomaly M by at most (1 + e) * 1e-10.  The stopping rule only bounds the
Newton step f/df by 1e-10, and the residual f satisfies
|f| = |f/df| * |1 - e cos E| <= 1e-10 * (1 + e); the plain 1e-10 bound of
the original claim fails at e = 0.99 (see the counterexample). -/
theorem kepler_roundtrip_bound (fuel : ℕ) (ecc t E : ℝ) (h0 : 0 ≤ ecc)
    (h1 : ecc ≤ 99 / 100)
    (hE : newtonLoop ecc (meanAnomaly t) fuel (meanAnomaly t) = some E) :
    |E - ecc * Real.sin E - meanAnomaly t| ≤ (1 + ecc) * (1 / 10 ^ 10) := by
  have hstop := newtonLoop_stop hE
  have hcos1 : ecc * Real.cos E ≤ ecc * 1 :=
    mul_le_mul_of_nonneg_left (Real.cos_le_one E) h0
  have hcos2 : ecc * -1 ≤ ecc * Real.cos E :=
    mul_le_mul_of_nonneg_left (Real.neg_one_le_cos E) h0
  have hdfpos : 0 < keplerDf ecc E := by
    unfold keplerDf
    nlinarith
  have hdfle : keplerDf ecc E ≤ 1 + ecc := by
    unfold keplerDf
    nlinarith
  have h2 : |keplerF ecc (meanAnomaly t) E|
      = |keplerF ecc (meanAnomaly t) E / keplerDf ecc E| * keplerDf ecc E := by
    rw [abs_div, abs_of_pos hdfpos, div_mul_cancel₀]
    exact hdfpos.ne'
  have hF : |keplerF ecc (meanAnomaly t) E| ≤ (1 + ecc) * (1 / 10 ^ 10) := by
    rw [h2, mul_comm (1 + ecc) (1 / 10 ^ 10)]
    exact mul_le_mul hstop hdfle hdfpos.le (by norm_num)
  simpa [keplerF] using hF

/-- C1 witness: the amended round-trip bound applied at eccentricity 0 and
phase 0, where the Newton loop stops immediately at E = 0. -/
theorem kepler_roundtrip_bound_witness :
    0 ≤ (0 : ℝ) ∧ (0 : ℝ) ≤ 99 / 100 ∧
    newtonLoop 0 (meanAnomaly 0) 0 (meanAnomaly 0) = some 0 ∧
    |0 - (0 : ℝ) * Real.sin 0 - meanAnomaly 0| ≤ (1 + 0) * (1 / 10 ^ 10) := by
  have hm : meanAnomaly 0 = 0 := by
    unfold meanAnomaly
    rw [zero_mul, if_neg (not_lt.mpr Real.pi_pos.le)]
  have hE0 : newtonLoop 0 (meanAnomaly 0) 0 (meanAnomaly 0) = some 0 := by
    rw [hm, newtonLoop.eq_def, if_pos]
    simp [keplerF, keplerDf]
  exact ⟨le_refl 0, by norm_num, hE0,
    kepler_roundtrip_bound 0 0 0 0 (le_refl 0) (by norm_num) hE0⟩

/-- For a phase in [0, 1) the normalized mean anomaly lies in the interval
Ioc (-pi) pi. -/
theorem meanAnomaly_mem_Ioc {t : ℝ} (h0 : 0 ≤ t) (h1 : t < 1) :
    meanAnomaly t ∈ Set.Ioc (-π) π := by
  unfold meanAnomaly
  have hpi := Real.pi_pos
  have hm0 : 0 ≤ t * (2 * π) := mul_nonneg h0 (by positivity)
  have hm2 : t * (2 * π) < 2 * π := by nlinarith
  by_cases hc : π < t * (2 * π)
  · rw [if_pos hc]
    constructor
    · nlinarith
    · nlinarith
  · rw [if_neg hc]
    exact ⟨by nlinarith, not_lt.mp hc⟩

/-- At eccentricity zero the true anomaly of any angle in Ioc (-pi) pi is
that angle itself. -/
theorem trueAnomaly_zero_ecc {M : ℝ} (hM : M ∈ Set.Ioc (-π) π) :
    trueAnomaly 0 M = M := by
  unfold trueAnomaly atan2
  norm_num [Real.sqrt_one]
  exact Complex.arg_cos_add_sin_mul_I hM

/-- C2: for eccentricity 0 and every phase in [0, 1), the Newton loop
stops immediately (its residual is identically zero at e = 0) and returns
the normalized mean anomaly itself, and mean anomaly, eccentric anomaly
and true anomaly all agree within 1e-8 (in fact exactly). -/
theorem circular_orbit_identity (fuel : ℕ) (t : ℝ) (h0 : 0 ≤ t) (h1 : t < 1) :
    newtonLoop 0 (meanAnomaly t) fuel (meanAnomaly t) = some (meanAnomaly t) ∧
    |meanAnomaly t - meanAnomaly t| ≤ 1 / 10 ^ 8 ∧
    |trueAnomaly 0 (meanAnomaly t) - meanAnomaly t| ≤ 1 / 10 ^ 8 := by
  refine ⟨?_, by norm_num, ?_⟩
  · rw [newtonLoop.eq_def, if_pos]
    simp [keplerF, keplerDf]
  · rw [trueAnomaly_zero_ecc (meanAnomaly_mem_Ioc h0 h1)]
    norm_num

/-- C2 witness: the circular-orbit identity at phase 0 with no fuel. -/
theorem circular_orbit_identity_witness :
    0 ≤ (0 : ℝ) ∧ (0 : ℝ) < 1 ∧
    (newtonLoop 0 (meanAnomaly 0) 0 (meanAnomaly 0) = some (meanAnomaly 0) ∧
      |meanAnomaly 0 - meanAnomaly 0| ≤ 1 / 10 ^ 8 ∧
      |trueAnomaly 0 (meanAnomaly 0) - meanAnomaly 0| ≤ 1 / 10 ^ 8) :=
  ⟨le_refl 0, by norm_num, circular_orbit_identity 0 0 (le_refl 0) (by norm_num)⟩

/-- C1 counterexample: at eccentricity 0.99 and phase 1/2 - 2.5e-11 the
normalized mean anomaly is M = pi - pi/(2*10^10).  The Newton loop stops
immediately at E = M because the step f(M)/df(M) is below 1e-10 (the
derivative df is close to 1.99 there), yet the round-trip residual
|E - e sin E - M| = 0.99 sin (pi/(2*10^10)) is about 1.55e-10, above the
1e-10 tolerance stated in the claim. -/
theorem kepler_roundtrip_cex :
    newtonLoop (99 / 100) (meanAnomaly (1 / 2 - 1 / (4 * 10 ^ 10))) 100
        (meanAnomaly (1 / 2 - 1 / (4 * 10 ^ 10)))
      = some (meanAnomaly (1 / 2 - 1 / (4 * 10 ^ 10))) ∧
    ¬ (|meanAnomaly (1 / 2 - 1 / (4 * 10 ^ 10))
          - 99 / 100 * Real.sin (meanAnomaly (1 / 2 - 1 / (4 * 10 ^ 10)))
          - meanAnomaly (1 / 2 - 1 / (4 * 10 ^ 10))| ≤ 1 / 10 ^ 10) := by
  have hpi := Real.pi_pos
  have hpi_lb : (3.141592 : ℝ) < π := Real.pi_gt_d6
  have hpi_ub : π < (3.141593 : ℝ) := Real.pi_lt_d6
  set d : ℝ := π / (2 * 10 ^ 10) with hd
  have hd_pos : 0 < d := by
    rw [hd]
    positivity
  have hd_lb : (3141592 : ℝ) / (2 * 10 ^ 16) < d := by
    rw [hd, lt_div_iff₀ (by norm_num : (0 : ℝ) < 2 * 10 ^ 10)]
    have he : (3141592 : ℝ) / (2 * 10 ^ 16) * (2 * 10 ^ 10) = 3.141592 := by norm_num
    rw [he]
    exact hpi_lb
  have hd_ub : d < (3141593 : ℝ) / (2 * 10 ^ 16) := by
    rw [hd, div_lt_iff₀ (by norm_num : (0 : ℝ) < 2 * 10 ^ 10)]
    have he : (3141593 : ℝ) / (2 * 10 ^ 16) * (2 * 10 ^ 10) = 3.141593 := by norm_num
    rw [he]
    exact hpi_ub
  have hd1 : d ≤ 1 := by
    have he : (3141593 : ℝ) / (2 * 10 ^ 16) ≤ 1 := by norm_num
    linarith
  have hsin_ub : Real.sin d < d := Real.sin_lt hd_pos
  have hsin_lb : d - d ^ 3 / 4 < Real.sin d := Real.sin_gt_sub_cube hd_pos hd1
  have hd2_small : d ^ 2 ≤ 1 / 10 ^ 10 := by
    have h := mul_self_lt_mul_self hd_pos.le hd_ub
    nlinarith
  have hd3 : d ^ 3 ≤ d * (1 / 10 ^ 10) := by
    have h := mul_le_mul_of_nonneg_left hd2_small hd_pos.le
    nlinarith
  have hd3' : d * (1 / 10 ^ 10) ≤ (3141593 : ℝ) / (2 * 10 ^ 16) * (1 / 10 ^ 10) :=
    mul_le_mul_of_nonneg_right hd_ub.le (by norm_num)
  have hdK : d * (1 / 10 ^ 10) ≤ d := by nlinarith
  have hsin_pos : 0 < Real.sin d := by linarith
  have hcos_lb : 1 - d ^ 2 / 2 ≤ Real.cos d := Real.one_sub_sq_div_two_le_cos
  have hA : 1 / 10 ^ 10 < 99 / 100 * Real.sin d := by linarith
  have hB : 99 / 100 * Real.sin d ≤ 1 / 10 ^ 10 * (1 + 99 / 100 * Real.cos d) := by
    linarith
  have hdenom : 0 < 1 + 99 / 100 * Real.cos d := by
    have hc := Real.neg_one_le_cos d
    linarith
  have hM : meanAnomaly (1 / 2 - 1 / (4 * 10 ^ 10)) = π - d := by
    unfold meanAnomaly
    have harg : (1 / 2 - 1 / (4 * 10 ^ 10) : ℝ) * (2 * π) = π - d := by
      rw [hd]
      ring
    rw [harg, if_neg (not_lt.mpr (by linarith : π - d ≤ π))]
  have hF : keplerF (99 / 100) (π - d) (π - d) = -(99 / 100 * Real.sin d) := by
    unfold keplerF
    rw [Real.sin_pi_sub]
    ring
  have hDf : keplerDf (99 / 100) (π - d) = 1 + 99 / 100 * Real.cos d := by
    unfold keplerDf
    rw [Real.cos_pi_sub]
    ring
  have habs : |keplerF (99 / 100) (π - d) (π - d) / keplerDf (99 / 100) (π - d)|
      ≤ 1 / 10 ^ 10 := by
    rw [hF, hDf, abs_div, abs_neg,
      abs_of_pos (mul_pos (by norm_num : (0 : ℝ) < 99 / 100) hsin_pos),
      abs_of_pos hdenom, div_le_iff₀ hdenom]
    linarith
  constructor
  · rw [hM, newtonLoop.eq_def, if_pos habs]
  · rw [hM]
    intro hcon
    have heq : π - d - 99 / 100 * Real.sin (π - d) - (π - d)
        = -(99 / 100 * Real.sin d) := by
      rw [Real.sin_pi_sub]
      ring
    rw [heq, abs_neg, abs_of_pos (mul_pos (by norm_num) hsin_pos)] at hcon
    linarith
